import Mathlib

/-!
Shallow embedding of the Stellar disbursement frontend's financial record
normalization and validation engine:

* role catalog and access evaluation (`helpers/userRoleText.ts`,
  `validateRoleChangePermission` in `apiQueries/useUpdateUserRole.ts`);
* disbursement normalization and its status machine
  (`helpers/formatDisbursements.ts`);
* payment normalization and its status machine (payment formatting helper);
* CSV decimal aggregation (`csvTotalAmount`, `getCSVStatistics`).

Modelling conventions:

* TypeScript optional/nullable fields become `Option`; JS string truthiness
  (`!s` is true for `undefined`/`null`/`""`) is `truthyStr`.
* `bignumber.js` values are modelled by `BigNum`: a sign flag plus an exact
  decimal coefficient/scale pair with trailing zeros of the fraction
  normalized away, mirroring how bignumber.js stores a sign and a
  normalized coefficient.  The sign is kept separately because bignumber.js
  keeps a signed zero (`new BigNumber("-0").isNegative()` is `true`).
  `NaN` results of the constructor are modelled by `Option.none` from the
  string parser.  `plus` is exact decimal addition; `dividedBy` rounds the
  quotient to `DECIMAL_PLACES = 20` decimal places with the default
  `ROUND_HALF_UP` mode, as bignumber.js does.
* Thrown `Error(msg)` becomes `Except.error msg`; the returned domain model
  is the `Except.ok` payload.  Logger calls are side channels with no effect
  on returned values and are not modelled.
* Strings being split/trimmed are processed as `List Char` (`String.data`)
  so that every operation is structurally recursive and computable.
-/

/-- JS truthiness of an optional string: `undefined`, `null` and `""` are
falsy, every other string is truthy. -/
def truthyStr (o : Option String) : Bool :=
  match o with
  | none => false
  | some s => s ≠ ""

/-- JS `x || d` for an optional number `x`: `undefined`/`null` and `0` fall
through to the default. -/
def jsNumOr (o : Option Int) (d : Int) : Int :=
  match o with
  | none => d
  | some v => if v = 0 then d else v

/-! ## Role catalog (`helpers/userRoleText.ts`) -/

/-- Source `RoleInfo` record from `helpers/userRoleText.ts`. -/
structure RoleInfo where
  displayName : String
  description : String
  permissions : List String
  level : Int
  deriving Repr, DecidableEq

/-- Source `getRoleInfo(role?)`: static table entry per role; unknown / absent roles
resolve to the zero-permission, level-0 default. -/
def getRoleInfo (role : Option String) : RoleInfo :=
  let defaultRole : RoleInfo :=
    { displayName := "Unknown"
      description := "Unknown role with no permissions"
      permissions := []
      level := 0 }
  match role with
  | some "owner" =>
    { displayName := "Owner"
      description := "Full system access with all permissions"
      permissions :=
        ["manage_users", "manage_roles", "manage_disbursements",
         "manage_payments", "manage_wallets", "manage_assets",
         "view_analytics", "manage_settings", "manage_api_keys",
         "manage_organization"]
      level := 100 }
  | some "business" =>
    { displayName := "Business User"
      description := "Business operations with limited administrative access"
      permissions :=
        ["manage_disbursements", "manage_payments", "view_receivers",
         "view_analytics", "manage_api_keys", "view_settings"]
      level := 75 }
  | some "developer" =>
    { displayName := "Developer"
      description := "Technical access for development and integration"
      permissions :=
        ["manage_api_keys", "view_disbursements", "view_payments",
         "view_analytics", "manage_integrations", "view_settings"]
      level := 60 }
  | some "financial_controller" =>
    { displayName := "Financial Controller"
      description := "Financial oversight and control permissions"
      permissions :=
        ["view_disbursements", "view_payments", "view_receivers",
         "view_analytics", "approve_payments", "view_financial_reports",
         "manage_payment_limits"]
      level := 80 }
  | _ => defaultRole

/-- Source `hasPermission(role, permission)`. -/
def hasPermission (role : Option String) (permission : String) : Bool :=
  ((getRoleInfo role).permissions).contains permission

/-- Source `hasAnyPermission(role, permissions)`: `permissions.some(...)`. -/
def hasAnyPermission (role : Option String) (permissions : List String) : Bool :=
  permissions.any (fun permission => ((getRoleInfo role).permissions).contains permission)

/-- Source `hasAllPermissions(role, permissions)`: `permissions.every(...)`. -/
def hasAllPermissions (role : Option String) (permissions : List String) : Bool :=
  permissions.all (fun permission => ((getRoleInfo role).permissions).contains permission)

/-- Source `compareRoleLevels(role1, role2)`. -/
def compareRoleLevels (role1 role2 : Option String) : Int :=
  (getRoleInfo role1).level - (getRoleInfo role2).level

/-- Result shape of `validateRoleChangePermission`. -/
structure RoleChangeCheck where
  isValid : Bool
  reason : Option String
  deriving Repr, DecidableEq

/-- Source `validateRoleChangePermission(currentUserRole, newRole)` from
`apiQueries/useUpdateUserRole.ts` (the implementation of
`canAssignRole`): deny without `manage_roles`, deny a higher-level target
role, deny `owner` assignment by non-owners, otherwise allow. -/
def validateRoleChangePermission (currentUserRole newRole : String) : RoleChangeCheck :=
  let currentRoleInfo := getRoleInfo (some currentUserRole)
  let newRoleInfo := getRoleInfo (some newRole)
  if ¬ (currentRoleInfo.permissions.contains "manage_roles") then
    { isValid := false
      reason := some "Insufficient permissions to manage user roles" }
  else if newRoleInfo.level > currentRoleInfo.level then
    { isValid := false
      reason := some "Cannot assign a role with higher permissions than your own" }
  else if newRole = "owner" ∧ currentUserRole ≠ "owner" then
    { isValid := false
      reason := some "Only existing owners can assign owner role" }
  else
    { isValid := true, reason := none }

/-! ## Character-list text utilities (JS `split` / `trim` / substring) -/

/-- Split a character list at every occurrence of `sep`
(JS `"a,b".split(",")`, which keeps empty fields). -/
def splitOnChar (sep : Char) : List Char → List (List Char)
  | [] => [[]]
  | c :: rest =>
    let groups := splitOnChar sep rest
    if c = sep then
      [] :: groups
    else
      match groups with
      | [] => [[c]]
      | g :: gs => (c :: g) :: gs

/-- JS `String.prototype.trim()`: strip leading and trailing whitespace. -/
def trimChars (cs : List Char) : List Char :=
  ((cs.dropWhile Char.isWhitespace).reverse.dropWhile Char.isWhitespace).reverse

/-- Whether `pat` occurs as a contiguous substring of `s`. -/
def containsSub (pat s : List Char) : Bool :=
  (List.range (s.length + 1)).any (fun i => pat.isPrefixOf (s.drop i))

/-! ## bignumber.js value model -/

/-- A `bignumber.js` value: sign flag plus a normalized decimal
coefficient/scale pair, the represented number being
`(neg ? -1 : 1) * coeff / 10 ^ scale`.  bignumber.js stores the sign
separately from the coefficient, so `-0` is distinct from `0` and
`isNegative()` is true for it; coefficients are kept with trailing
fraction zeros stripped, so `scale` is exactly `decimalPlaces()`. -/
structure BigNum where
  neg : Bool
  coeff : Nat
  scale : Nat
  deriving Repr, DecidableEq

/-- The `BigNumber(0)` constant. -/
def bigZero : BigNum := { neg := false, coeff := 0, scale := 0 }

/-- Strip trailing zeros of the fraction part: divide the coefficient by 10
while it is divisible and the scale is positive. -/
def stripZeros : Nat → Nat → Nat × Nat
  | c, 0 => (c, 0)
  | c, s + 1 => if c % 10 = 0 then stripZeros (c / 10) s else (c, s + 1)

/-- Signed integer coefficient of a `BigNum`. -/
def signedCoeff (b : BigNum) : Int :=
  if b.neg then -(b.coeff : Int) else (b.coeff : Int)

/-- Rational value represented by a `BigNum` (specification bridge). -/
def toRat (b : BigNum) : Rat :=
  (signedCoeff b : Rat) / (10 : Rat) ^ b.scale

/-- Build a normalized `BigNum` from a signed scaled integer value
`v / 10 ^ scale`; the sign of the result is the sign of `v`. -/
def mkBigNum (v : Int) (scale : Nat) : BigNum :=
  let cs := stripZeros v.natAbs scale
  { neg := decide (v < 0), coeff := cs.1, scale := cs.2 }

/-- Build a normalized `BigNum` from an explicit sign and a magnitude
`c / 10 ^ scale` (used by the constructor, which keeps the written sign
even on zero, giving bignumber.js its signed zero). -/
def mkBigNumSigned (neg : Bool) (c : Nat) (scale : Nat) : BigNum :=
  let cs := stripZeros c scale
  { neg := neg, coeff := cs.1, scale := cs.2 }

/-- Value of a digit run, most significant first. -/
def digitsVal (cs : List Char) : Nat :=
  cs.foldl (fun a c => a * 10 + (c.toNat - 48)) 0

/-- Model of `new BigNumber(str)` on a plain signed decimal string (the
domain CSV cells live in): optional sign, digits with at most one decimal
point, at least one digit.  `none` models a `NaN` result. -/
def parseBigNum (cs : List Char) : Option BigNum :=
  let signBody : Bool × List Char :=
    match cs with
    | '-' :: rest => (true, rest)
    | '+' :: rest => (false, rest)
    | rest => (false, rest)
  let neg := signBody.1
  match splitOnChar '.' signBody.2 with
  | [ip] =>
    if ip ≠ [] ∧ ip.all Char.isDigit then
      some (mkBigNumSigned neg (digitsVal ip) 0)
    else none
  | [ip, fp] =>
    if (ip ≠ [] ∨ fp ≠ []) ∧ ip.all Char.isDigit ∧ fp.all Char.isDigit then
      some (mkBigNumSigned neg (digitsVal (ip ++ fp)) fp.length)
    else none
  | _ => none

/-- Model of `a.plus(b)`: exact decimal addition — align the scales, add the
signed coefficients, normalize.  The sign of the result is the sign of the
sum. -/
def bigPlus (a b : BigNum) : BigNum :=
  let s := max a.scale b.scale
  mkBigNum
    (signedCoeff a * (10 : Int) ^ (s - a.scale) +
      signedCoeff b * (10 : Int) ^ (s - b.scale)) s

/-- Model of `a.isLessThanOrEqualTo(b)` / the comparison underlying
`BigNumber.minimum` and `BigNumber.maximum`. -/
def bigLe (a b : BigNum) : Bool :=
  signedCoeff a * (10 : Int) ^ b.scale ≤ signedCoeff b * (10 : Int) ^ a.scale

/-- Pairwise reduction step of `BigNumber.minimum`. -/
def bigMin (a b : BigNum) : BigNum :=
  if bigLe a b then a else b

/-- Pairwise reduction step of `BigNumber.maximum`. -/
def bigMax (a b : BigNum) : BigNum :=
  if bigLe b a then a else b

/-- Round-half-up integer division (the default `ROUND_HALF_UP` mode). -/
def roundHalfUpDiv (n d : Nat) : Nat :=
  if d ≤ 2 * (n % d) then n / d + 1 else n / d

/-- Model of `a.dividedBy(n)` for a natural divisor, with the bignumber.js
defaults `DECIMAL_PLACES = 20` and `ROUND_HALF_UP`: the quotient is rounded
to 20 decimal places and normalized.  The source only divides by a positive
row count, so the `n = 0` (Infinity) case is left at zero. -/
def bigDivNat (a : BigNum) (n : Nat) : BigNum :=
  if n = 0 then bigZero
  else
    let cs := stripZeros (roundHalfUpDiv (a.coeff * 10 ^ 20) (n * 10 ^ a.scale)) 20
    { neg := a.neg, coeff := cs.1, scale := cs.2 }

/-! ## CSV aggregation (`helpers/csvTotalAmount.ts`) -/

/-- Accumulator threaded through `csvTotalAmount`\'s `rows.forEach` loop. -/
structure CsvAcc where
  totalAmount : BigNum
  validRows : Nat
  invalidRows : Nat
  errors : List String
  deriving Repr, DecidableEq

/-- Body of the `rows.forEach((line, index) => ...)` loop in
`csvTotalAmount`: skip blank lines; empty / non-numeric / negative cell
values are per-row errors; a value whose `decimalPlaces()` exceeds the
limit is only logged (`logger.warn`) and changes no accumulator field;
every other value is added to the running total and counted valid. -/
def processCsvRow (amountIndex decimalPlaces : Nat) (st : CsvAcc) (index : Nat)
    (line : List Char) : CsvAcc :=
  if trimChars line = [] then st
  else
    let values := (splitOnChar ',' line).map trimChars
    let amountValue := values.getD amountIndex []
    if amountValue = [] then
      { st with invalidRows := st.invalidRows + 1
                errors := st.errors ++ [s!"Row {index + 2}: Empty amount value"] }
    else
      match parseBigNum amountValue with
      | none =>
        { st with invalidRows := st.invalidRows + 1
                  errors := st.errors ++
                    [s!"Row {index + 2}: Invalid amount format: {String.mk amountValue}"] }
      | some amount =>
        if amount.neg then
          { st with invalidRows := st.invalidRows + 1
                    errors := st.errors ++
                      [s!"Row {index + 2}: Negative amount: {String.mk amountValue}"] }
        else
          -- `amount.decimalPlaces() > decimalPlaces` (`amount.scale > decimalPlaces`)
          -- only triggers a `logger.warn`; the accumulator is updated identically.
          { st with totalAmount := bigPlus st.totalAmount amount
                    validRows := st.validRows + 1 }

/-- Pure core of `csvTotalAmount` (everything inside `reader.onload` after
the file text is available).  `none` models the early `resolve(null)`
branches: empty text, fewer than two non-blank lines, missing column. -/
def csvTotalAmountCore (csvRows columnName : String) (decimalPlaces : Nat) :
    Option CsvAcc :=
  if csvRows = "" then none
  else
    let lines := (splitOnChar '\n' csvRows.data).filter (fun line => trimChars line ≠ [])
    match lines with
    | [] => none
    | [_] => none
    | header :: rows =>
      let columns := (splitOnChar ',' header).map trimChars
      match columns.findIdx? (fun col => col == columnName.data) with
      | none => none
      | some amountIndex =>
        some (rows.enum.foldl
          (fun st p => processCsvRow amountIndex decimalPlaces st p.1 p.2)
          { totalAmount := bigZero, validRows := 0, invalidRows := 0, errors := [] })

/-- Result shape of `getCSVStatistics`. -/
structure CSVStats where
  rowCount : Nat
  totalAmount : BigNum
  averageAmount : BigNum
  minAmount : BigNum
  maxAmount : BigNum
  validRows : Nat
  invalidRows : Nat
  deriving Repr, DecidableEq

/-- The all-zero statistics record returned on the degenerate branches. -/
def zeroCSVStats (rowCount invalidRows : Nat) : CSVStats :=
  { rowCount := rowCount
    totalAmount := bigZero
    averageAmount := bigZero
    minAmount := bigZero
    maxAmount := bigZero
    validRows := 0
    invalidRows := invalidRows }

/-- Body of the `rows.forEach` loop in `getCSVStatistics`: push the parsed
amount when the cell is non-empty, numeric and not negative, otherwise count
the row invalid (blank lines are skipped). -/
def collectRow (amountIndex : Nat) (st : List BigNum × Nat) (line : List Char) :
    List BigNum × Nat :=
  if trimChars line = [] then st
  else
    let values := (splitOnChar ',' line).map trimChars
    let amountValue := values.getD amountIndex []
    if amountValue ≠ [] then
      match parseBigNum amountValue with
      | some amount =>
        if ¬ amount.neg then (st.1 ++ [amount], st.2)
        else (st.1, st.2 + 1)
      | none => (st.1, st.2 + 1)
    else (st.1, st.2 + 1)

/-- Model of `getCSVStatistics` on the already-split non-blank lines: fewer
than two lines or a missing column yield the zero aggregate; otherwise
amounts are collected, summed exactly (`reduce` of `plus` from
`BigNumber(0)`), and min/max/average derived
(`BigNumber.minimum`/`maximum`/`dividedBy`). -/
def getCSVStatisticsLines (lines : List (List Char)) (amountColumn : List Char) :
    CSVStats :=
  match lines with
  | [] => zeroCSVStats 0 0
  | [_] => zeroCSVStats 0 0
  | header :: rows =>
    let columns := (splitOnChar ',' header).map trimChars
    match columns.findIdx? (fun col => col == amountColumn) with
    | none => zeroCSVStats rows.length rows.length
    | some amountIndex =>
      let collected := rows.foldl (collectRow amountIndex) ([], 0)
      match collected.1 with
      | [] => zeroCSVStats rows.length collected.2
      | a :: rest =>
        let totalAmount := (a :: rest).foldl bigPlus bigZero
        { rowCount := rows.length
          totalAmount := totalAmount
          averageAmount := bigDivNat totalAmount (a :: rest).length
          minAmount := rest.foldl bigMin a
          maxAmount := rest.foldl bigMax a
          validRows := (a :: rest).length
          invalidRows := collected.2 }

/-- Model of `getCSVStatistics(csvContent, amountColumn)`: split on
newlines, drop blank lines, aggregate. -/
def getCSVStatistics (csvContent amountColumn : String) : CSVStats :=
  getCSVStatisticsLines
    ((splitOnChar '\n' csvContent.data).filter (fun line => trimChars line ≠ []))
    amountColumn.data

/-- JS `x || d` for an optional decimal amount. -/
def jsRatOr (o : Option Rat) (d : Rat) : Rat :=
  match o with
  | none => d
  | some v => if v = 0 then d else v

/-! ## Disbursement normalization (`helpers/formatDisbursements.ts`) -/

/-- Source `created_by` / `started_by` raw shape. -/
structure ApiUserName where
  first_name : Option String
  last_name : Option String
  deriving Repr, DecidableEq

/-- Raw `asset` sub-record. -/
structure ApiAsset where
  id : Option String
  code : Option String
  deriving Repr, DecidableEq

/-- Raw `wallet` sub-record. -/
structure ApiWallet where
  id : Option String
  name : Option String
  deriving Repr, DecidableEq

/-- Raw disbursement `status_history` entry. -/
structure ApiDisbHistoryEntry where
  status : Option String
  timestamp : Option String
  user_id : Option String
  deriving Repr, DecidableEq

/-- Raw disbursement record (`ApiDisbursement` in `types`), optional where
the formatter guards against absence. -/
structure ApiDisbursement where
  id : Option String
  name : Option String
  created_at : String
  created_by : Option ApiUserName
  started_by : Option ApiUserName
  total_payments : Option Int
  total_payments_sent : Option Int
  total_payments_failed : Option Int
  total_payments_canceled : Option Int
  total_payments_remaining : Option Int
  total_amount : Option Rat
  amount_disbursed : Option Rat
  average_amount : Option Rat
  status : String
  registration_contact_type : String
  asset : Option ApiAsset
  wallet : Option ApiWallet
  verification_field : String
  file_name : String
  status_history : Option (List ApiDisbHistoryEntry)
  receiver_registration_message_template : String
  deriving Repr, DecidableEq

/-- Source `stats` block of the normalized disbursement. -/
structure DisbursementStats where
  paymentsSuccessfulCount : Int
  paymentsFailedCount : Int
  paymentsCanceledCount : Int
  paymentsRemainingCount : Int
  paymentsTotalCount : Int
  totalAmount : Rat
  disbursedAmount : Rat
  averagePaymentAmount : Rat
  deriving Repr, DecidableEq

/-- Normalized disbursement status-history entry. -/
structure DisbHistoryEntry where
  status : String
  timestamp : String
  userId : Option String
  deriving Repr, DecidableEq

/-- Normalized disbursement (`Disbursement` in `types`). -/
structure Disbursement where
  id : String
  name : String
  createdAt : String
  createdBy : Option String
  startedBy : Option String
  stats : DisbursementStats
  status : String
  registrationContactType : String
  assetId : String
  assetCode : String
  walletId : String
  walletName : String
  verificationField : String
  fileName : String
  statusHistory : List DisbHistoryEntry
  receiverRegistrationMessageTemplate : String
  deriving Repr, DecidableEq

/-- Source expression `first_name && last_name ? `${first} ${last}` : undefined`. -/
def formatUserName (u : Option ApiUserName) : Option String :=
  if truthyStr (u.bind (·.first_name)) && truthyStr (u.bind (·.last_name)) then
    some ((u.bind (·.first_name)).getD "" ++ " " ++ (u.bind (·.last_name)).getD "")
  else
    none

/-- Sort a filtered status history newest first.  JS sorts with the stable
comparator `(a, b) => new Date(b.timestamp).getTime() - new Date(a.timestamp).getTime()`;
for the upstream ISO-8601 timestamps `getTime` ordering coincides with
lexicographic string ordering, which is how the comparison is modelled. -/
def sortHistoryDesc {α : Type} (timestampOf : α → Option String) (entries : List α) :
    List α :=
  entries.mergeSort (fun a b => decide ((timestampOf b).getD "" ≤ (timestampOf a).getD ""))

/-- Source `formatDisbursement(disbursement)`: fatal checks on id, name, asset and
wallet (thrown `Error`s); `|| 0` defaulting of the count and amount fields;
count-sum and disbursed-vs-total mismatches only produce `logger.warn`
calls and leave the returned record unchanged; status history is filtered
to entries having both timestamp and status, sorted newest first. -/
def formatDisbursement (disbursement : ApiDisbursement) : Except String Disbursement :=
  if ¬ truthyStr disbursement.id then
    .error "Disbursement ID is required"
  else if ¬ truthyStr disbursement.name ∨
      trimChars ((disbursement.name.getD "").data) = [] then
    .error "Disbursement name is required"
  else if ¬ truthyStr (disbursement.asset.bind (·.id)) ∨
      ¬ truthyStr (disbursement.asset.bind (·.code)) then
    .error "Disbursement asset information is required"
  else if ¬ truthyStr (disbursement.wallet.bind (·.id)) ∨
      ¬ truthyStr (disbursement.wallet.bind (·.name)) then
    .error "Disbursement wallet information is required"
  else
    let totalPayments := jsNumOr disbursement.total_payments 0
    let successfulPayments := jsNumOr disbursement.total_payments_sent 0
    let failedPayments := jsNumOr disbursement.total_payments_failed 0
    let canceledPayments := jsNumOr disbursement.total_payments_canceled 0
    let remainingPayments := jsNumOr disbursement.total_payments_remaining 0
    -- `totalPayments !== calculatedTotal` and `disbursedAmount > totalAmount`
    -- only trigger `logger.warn`; no field of the result depends on them.
    let totalAmount := jsRatOr disbursement.total_amount 0
    let disbursedAmount := jsRatOr disbursement.amount_disbursed 0
    let averageAmount := jsRatOr disbursement.average_amount 0
    let statusHistory :=
      (sortHistoryDesc (·.timestamp)
          ((disbursement.status_history.getD []).filter
            (fun h => truthyStr h.timestamp && truthyStr h.status))).map
        (fun h =>
          { status := h.status.getD ""
            timestamp := h.timestamp.getD ""
            userId := h.user_id })
    .ok
      { id := disbursement.id.getD ""
        name := disbursement.name.getD ""
        createdAt := disbursement.created_at
        createdBy := formatUserName disbursement.created_by
        startedBy := formatUserName disbursement.started_by
        stats :=
          { paymentsSuccessfulCount := successfulPayments
            paymentsFailedCount := failedPayments
            paymentsCanceledCount := canceledPayments
            paymentsRemainingCount := remainingPayments
            paymentsTotalCount := totalPayments
            totalAmount := totalAmount
            disbursedAmount := disbursedAmount
            averagePaymentAmount := averageAmount }
        status := disbursement.status
        registrationContactType := disbursement.registration_contact_type
        assetId := (disbursement.asset.bind (·.id)).getD ""
        assetCode := (disbursement.asset.bind (·.code)).getD ""
        walletId := (disbursement.wallet.bind (·.id)).getD ""
        walletName := (disbursement.wallet.bind (·.name)).getD ""
        verificationField := disbursement.verification_field
        fileName := disbursement.file_name
        statusHistory := statusHistory
        receiverRegistrationMessageTemplate :=
          disbursement.receiver_registration_message_template }

/-- Transition table of `validateDisbursementStatusTransition`
(`validTransitions[currentStatus] || []`). -/
def disbursementValidTransitions (currentStatus : String) : List String :=
  if currentStatus = "draft" then ["pending", "canceled"]
  else if currentStatus = "pending" then ["processing", "canceled"]
  else if currentStatus = "processing" then ["completed", "failed", "canceled"]
  else if currentStatus = "completed" then []
  else if currentStatus = "failed" then ["retry", "canceled"]
  else if currentStatus = "canceled" then []
  else if currentStatus = "retry" then ["processing", "failed", "canceled"]
  else []

/-- Source `validateDisbursementStatusTransition(currentStatus, newStatus)`. -/
def validateDisbursementStatusTransition (currentStatus newStatus : String) : Bool :=
  (disbursementValidTransitions currentStatus).contains newStatus

/-! ## Payment normalization (payment formatting helper) -/

/-- Raw payment `status_history` entry. -/
structure ApiPaymentHistoryEntry where
  status : Option String
  timestamp : Option String
  status_message : Option String
  deriving Repr, DecidableEq

/-- Raw payment `asset` sub-record (only `code` is read). -/
structure ApiPaymentAsset where
  code : Option String
  deriving Repr, DecidableEq

/-- Raw `receiver` sub-record of a payment's receiver wallet. -/
structure ApiPaymentReceiver where
  id : Option String
  deriving Repr, DecidableEq

/-- Raw `receiver_wallet` sub-record. -/
structure ApiReceiverWallet where
  id : Option String
  receiver : Option ApiPaymentReceiver
  deriving Repr, DecidableEq

/-- Raw `disbursement` sub-record of a payment. -/
structure ApiPaymentDisbursement where
  id : Option String
  name : Option String
  deriving Repr, DecidableEq

/-- Raw payment record (`ApiPayment` in `types`). -/
structure ApiPayment where
  id : Option String
  created_at : String
  amount : Option Rat
  asset : Option ApiPaymentAsset
  disbursement : Option ApiPaymentDisbursement
  receiver_wallet : Option ApiReceiverWallet
  stellar_transaction_id : String
  stellar_address : String
  external_payment_id : Option String
  circle_transfer_request_id : Option String
  status : String
  status_history : Option (List ApiPaymentHistoryEntry)
  deriving Repr, DecidableEq

/-- Normalized payment status-history entry. -/
structure PaymentHistoryEntry where
  updatedAt : String
  message : String
  status : String
  deriving Repr, DecidableEq

/-- Normalized payment (`PaymentDetails` in `types`). -/
structure PaymentDetails where
  id : String
  createdAt : String
  disbursementName : String
  disbursementId : String
  receiverId : Option String
  receiverWalletId : Option String
  transactionId : String
  senderAddress : String
  totalAmount : Rat
  assetCode : String
  externalPaymentId : Option String
  circleTransferRequestId : Option String
  status : String
  statusHistory : List PaymentHistoryEntry
  deriving Repr, DecidableEq

/-- Source `formatPaymentDetails(payment)`: fatal checks on id
(`Payment ID is required`), amount (`!payment.amount || payment.amount <= 0`,
i.e. absent, zero — falsy — or negative) and asset code; status history is
filtered, sorted newest first, with `status_message || 'Status updated'`
defaulting; the disbursement name defaults to `Direct Payment` and the
disbursement id to the empty string. -/
def formatPaymentDetails (payment : ApiPayment) : Except String PaymentDetails :=
  if ¬ truthyStr payment.id then
    .error "Payment ID is required"
  else
    match payment.amount with
    | none => .error "Payment amount must be greater than 0"
    | some amount =>
      if amount ≤ 0 then
        .error "Payment amount must be greater than 0"
      else if ¬ truthyStr (payment.asset.bind (·.code)) then
        .error "Payment asset code is required"
      else
        let statusHistory :=
          (sortHistoryDesc (·.timestamp)
              ((payment.status_history.getD []).filter
                (fun h => truthyStr h.timestamp && truthyStr h.status))).map
            (fun h =>
              { updatedAt := h.timestamp.getD ""
                message :=
                  if truthyStr h.status_message then h.status_message.getD ""
                  else "Status updated"
                status := h.status.getD "" })
        let disbursementName :=
          if truthyStr (payment.disbursement.bind (·.name)) then
            (payment.disbursement.bind (·.name)).getD ""
          else "Direct Payment"
        let disbursementId := (payment.disbursement.bind (·.id)).getD ""
        .ok
          { id := payment.id.getD ""
            createdAt := payment.created_at
            disbursementName := disbursementName
            disbursementId := disbursementId
            receiverId := (payment.receiver_wallet.bind (·.receiver)).bind (·.id)
            receiverWalletId := payment.receiver_wallet.bind (·.id)
            transactionId := payment.stellar_transaction_id
            senderAddress := payment.stellar_address
            totalAmount := amount
            assetCode := (payment.asset.bind (·.code)).getD ""
            externalPaymentId := payment.external_payment_id
            circleTransferRequestId := payment.circle_transfer_request_id
            status := payment.status
            statusHistory := statusHistory }

/-- Transition table of `validatePaymentStatusTransition`
(`validTransitions[currentStatus] || []`). -/
def paymentValidTransitions (currentStatus : String) : List String :=
  if currentStatus = "pending" then ["processing", "failed", "canceled"]
  else if currentStatus = "processing" then ["completed", "failed"]
  else if currentStatus = "completed" then []
  else if currentStatus = "failed" then ["retry", "canceled"]
  else if currentStatus = "canceled" then []
  else if currentStatus = "retry" then ["processing", "failed", "canceled"]
  else []

/-- Source `validatePaymentStatusTransition(currentStatus, newStatus)`. -/
def validatePaymentStatusTransition (currentStatus newStatus : String) : Bool :=
  (paymentValidTransitions currentStatus).contains newStatus

/-! ## BigNum arithmetic lemmas -/

theorem stripZeros_snd_le (c s : Nat) : (stripZeros c s).2 ≤ s := by
  induction s generalizing c with
  | zero => simp [stripZeros]
  | succ s ih =>
    rw [stripZeros]
    by_cases h : c % 10 = 0
    · rw [if_pos h]
      exact le_trans (ih (c / 10)) (Nat.le_succ s)
    · simp [if_neg h]

theorem stripZeros_spec (c s : Nat) :
    (stripZeros c s).1 * 10 ^ (s - (stripZeros c s).2) = c := by
  induction s generalizing c with
  | zero => simp [stripZeros]
  | succ s ih =>
    rw [stripZeros]
    by_cases h : c % 10 = 0
    · rw [if_pos h]
      have h1 := ih (c / 10)
      have h2 : (stripZeros (c / 10) s).2 ≤ s := stripZeros_snd_le _ _
      have h3 : s + 1 - (stripZeros (c / 10) s).2 = (s - (stripZeros (c / 10) s).2) + 1 := by
        omega
      rw [h3, pow_succ, ← mul_assoc, h1]
      exact Nat.div_mul_cancel (Nat.dvd_of_mod_eq_zero h)
    · simp [if_neg h]

theorem stripZeros_norm (c s : Nat) :
    (stripZeros c s).2 ≠ 0 → (stripZeros c s).1 % 10 ≠ 0 := by
  induction s generalizing c with
  | zero => simp [stripZeros]
  | succ s ih =>
    rw [stripZeros]
    by_cases h : c % 10 = 0
    · rw [if_pos h]
      exact ih (c / 10)
    · intro _
      simpa [if_neg h] using h

/-- A `BigNum` whose fraction part carries no trailing zero (the shape every
`stripZeros` output has). -/
def Normalized (b : BigNum) : Prop := b.scale = 0 ∨ b.coeff % 10 ≠ 0

theorem toRat_mkBigNum (v : Int) (s : Nat) :
    toRat (mkBigNum v s) = (v : Rat) / (10 : Rat) ^ s := by
  have h1 := stripZeros_spec v.natAbs s
  have h2 := stripZeros_snd_le v.natAbs s
  have hmag : ((stripZeros v.natAbs s).1 : Rat) / (10 : Rat) ^ (stripZeros v.natAbs s).2
      = (v.natAbs : Rat) / (10 : Rat) ^ s := by
    rw [div_eq_div_iff (by positivity) (by positivity)]
    have h3 : (stripZeros v.natAbs s).1 * 10 ^ s
        = v.natAbs * 10 ^ (stripZeros v.natAbs s).2 := by
      calc (stripZeros v.natAbs s).1 * 10 ^ s
          = (stripZeros v.natAbs s).1 * (10 ^ (s - (stripZeros v.natAbs s).2) *
              10 ^ (stripZeros v.natAbs s).2) := by
            rw [← pow_add]
            congr 2
            omega
        _ = ((stripZeros v.natAbs s).1 * 10 ^ (s - (stripZeros v.natAbs s).2)) *
              10 ^ (stripZeros v.natAbs s).2 := by ring
        _ = v.natAbs * 10 ^ (stripZeros v.natAbs s).2 := by rw [h1]
    exact_mod_cast h3
  have habs : ((v.natAbs : Rat)) = |(v : Rat)| := by
    rw [Int.cast_natAbs, Int.cast_abs]
  simp only [toRat, mkBigNum, signedCoeff, decide_eq_true_eq]
  by_cases hv : v < 0
  · rw [if_pos hv]
    push_cast
    rw [neg_div, hmag, habs, abs_of_neg (by exact_mod_cast hv), neg_div, neg_neg]
  · rw [if_neg hv]
    push_cast
    rw [hmag, habs, abs_of_nonneg (by exact_mod_cast (le_of_not_lt hv))]

theorem scaled_div_eq (x : Rat) (k m : Nat) (h : k ≤ m) :
    x * (10 : Rat) ^ (m - k) / (10 : Rat) ^ m = x / (10 : Rat) ^ k := by
  rw [div_eq_div_iff (by positivity) (by positivity), mul_assoc, ← pow_add]
  congr 2
  omega

theorem toRat_bigPlus (a b : BigNum) : toRat (bigPlus a b) = toRat a + toRat b := by
  simp only [bigPlus]
  rw [toRat_mkBigNum]
  push_cast
  rw [add_div,
    scaled_div_eq _ _ _ (le_max_left a.scale b.scale),
    scaled_div_eq _ _ _ (le_max_right a.scale b.scale)]
  rfl

theorem mkBigNum_normalized (v : Int) (s : Nat) : Normalized (mkBigNum v s) := by
  simp only [Normalized, mkBigNum]
  by_cases h : (stripZeros v.natAbs s).2 = 0
  · exact Or.inl h
  · exact Or.inr (stripZeros_norm _ _ h)

theorem bigPlus_normalized (a b : BigNum) : Normalized (bigPlus a b) :=
  mkBigNum_normalized _ _

theorem bigPlus_nonneg (a b : BigNum) (ha : a.neg = false) (hb : b.neg = false) :
    (bigPlus a b).neg = false := by
  simp only [bigPlus, mkBigNum, decide_eq_false_iff_not, not_lt]
  have h1 : 0 ≤ signedCoeff a := by simp [signedCoeff, ha]
  have h2 : 0 ≤ signedCoeff b := by simp [signedCoeff, hb]
  exact add_nonneg (mul_nonneg h1 (by positivity)) (mul_nonneg h2 (by positivity))

theorem bigNum_eq_aux (as bs ac bc : Nat) (hs : as ≤ bs)
    (hN : ac * 10 ^ bs = bc * 10 ^ as)
    (hb : bs = 0 ∨ bc % 10 ≠ 0) : ac = bc ∧ as = bs := by
  have hpow : 0 < 10 ^ as := Nat.pos_pow_of_pos as (by norm_num)
  have hbc : bc = ac * 10 ^ (bs - as) := by
    have : (ac * 10 ^ (bs - as)) * 10 ^ as = bc * 10 ^ as := by
      rw [mul_assoc, ← pow_add]
      rw [show bs - as + as = bs by omega]
      exact hN
    exact (Nat.eq_of_mul_eq_mul_right hpow this).symm
  by_cases hd : bs - as = 0
  · have hseq : as = bs := by omega
    refine ⟨?_, hseq⟩
    rw [hbc, hd, pow_zero, mul_one]
  · exfalso
    have h10 : bc % 10 = 0 := by
      rw [hbc, show bs - as = (bs - as - 1) + 1 by omega, pow_succ, ← mul_assoc]
      exact Nat.mul_mod_left _ 10
    rcases hb with hb0 | hb10
    · omega
    · exact hb10 h10

theorem toRat_inj_of_normalized (a b : BigNum) (ha : Normalized a) (hb : Normalized b)
    (han : a.neg = false) (hbn : b.neg = false) (h : toRat a = toRat b) : a = b := by
  have hN : a.coeff * 10 ^ b.scale = b.coeff * 10 ^ a.scale := by
    have h' : (a.coeff : Rat) / (10 : Rat) ^ a.scale
        = (b.coeff : Rat) / (10 : Rat) ^ b.scale := by
      simpa [toRat, signedCoeff, han, hbn] using h
    rw [div_eq_div_iff (by positivity) (by positivity)] at h'
    exact_mod_cast h'
  unfold Normalized at ha hb
  rcases le_total a.scale b.scale with hs | hs
  · obtain ⟨hc, hss⟩ := bigNum_eq_aux a.scale b.scale a.coeff b.coeff hs hN hb
    cases a
    cases b
    simp_all
  · obtain ⟨hc, hss⟩ := bigNum_eq_aux b.scale a.scale b.coeff a.coeff hs hN.symm ha
    cases a
    cases b
    simp_all

theorem foldl_bigPlus_spec (l : List BigNum) (init : BigNum)
    (hl : ∀ x ∈ l, x.neg = false) (hinit : Normalized init ∧ init.neg = false) :
    Normalized (l.foldl bigPlus init) ∧ (l.foldl bigPlus init).neg = false ∧
      toRat (l.foldl bigPlus init) = toRat init + (l.map toRat).sum := by
  induction l generalizing init with
  | nil => simpa using hinit
  | cons x xs ih =>
    have hx : x.neg = false := hl x (List.mem_cons_self x xs)
    have hxs : ∀ y ∈ xs, y.neg = false := fun y hy => hl y (List.mem_cons_of_mem x hy)
    obtain ⟨h1, h2, h3⟩ := ih (bigPlus init x) hxs
      ⟨bigPlus_normalized init x, bigPlus_nonneg init x hinit.2 hx⟩
    refine ⟨h1, h2, ?_⟩
    rw [List.foldl_cons, h3, toRat_bigPlus, List.map_cons, List.sum_cons]
    ring

/-! ## Text helper lemmas -/

theorem trimChars_eq_nil_iff (cs : List Char) :
    trimChars cs = [] ↔ ∀ x ∈ cs, x.isWhitespace = true := by
  unfold trimChars
  constructor
  · intro h x hx
    have h1 : List.dropWhile Char.isWhitespace
        ((cs.dropWhile Char.isWhitespace).reverse) = [] := by
      have := congrArg List.reverse h
      simpa using this
    rw [List.dropWhile_eq_nil_iff] at h1
    have hx' : x ∈ cs.takeWhile Char.isWhitespace ++ cs.dropWhile Char.isWhitespace := by
      rw [List.takeWhile_append_dropWhile]
      exact hx
    rcases List.mem_append.1 hx' with h2 | h2
    · exact List.mem_takeWhile_imp h2
    · exact h1 x (List.mem_reverse.2 h2)
  · intro h
    have : cs.dropWhile Char.isWhitespace = [] := List.dropWhile_eq_nil_iff.2 h
    simp [this]

theorem mem_of_mem_splitOnChar {sep : Char} {cs g : List Char} {x : Char}
    (hg : g ∈ splitOnChar sep cs) (hx : x ∈ g) : x ∈ cs := by
  induction cs generalizing g with
  | nil =>
    simp [splitOnChar] at hg
    subst hg
    simp at hx
  | cons c rest ih =>
    simp only [splitOnChar] at hg
    by_cases hc : c = sep
    · rw [if_pos hc] at hg
      rcases List.mem_cons.1 hg with rfl | hg'
      · simp at hx
      · exact List.mem_cons_of_mem c (ih hg' hx)
    · rw [if_neg hc] at hg
      cases hgs : splitOnChar sep rest with
      | nil =>
        rw [hgs] at hg
        simp at hg
        subst hg
        rcases List.mem_singleton.1 hx with rfl
        exact List.mem_cons_self x rest
      | cons g0 gs =>
        rw [hgs] at hg
        rcases List.mem_cons.1 hg with rfl | hg'
        · rcases List.mem_cons.1 hx with rfl | hx'
          · exact List.mem_cons_self x rest
          · refine List.mem_cons_of_mem c (ih ?_ hx')
            rw [hgs]
            exact List.mem_cons_self g0 gs
        · refine List.mem_cons_of_mem c (ih ?_ hx)
          rw [hgs]
          exact List.mem_cons_of_mem g0 hg'

theorem extractAt_of_blank (amountIndex : Nat) (line : List Char)
    (h : trimChars line = []) :
    ((splitOnChar ',' line).map trimChars).getD amountIndex [] = [] := by
  have hall : ∀ x ∈ line, x.isWhitespace = true := (trimChars_eq_nil_iff line).1 h
  rw [List.getD_eq_getElem?_getD]
  cases hg : ((splitOnChar ',' line).map trimChars)[amountIndex]? with
  | none => rfl
  | some v =>
    have hv : v ∈ (splitOnChar ',' line).map trimChars := List.getElem?_mem hg
    rcases List.mem_map.1 hv with ⟨g, hgmem, rfl⟩
    have hnil : trimChars g = [] := (trimChars_eq_nil_iff g).2
      (fun x hx => hall x (mem_of_mem_splitOnChar hgmem hx))
    simp [hnil]

theorem findIdx?_beq_none {α : Type} [BEq α] [LawfulBEq α] (l : List α) (x : α)
    (h : l.contains x = false) : l.findIdx? (fun c => c == x) = none := by
  rw [List.findIdx?_eq_none_iff]
  intro a ha
  by_contra hne
  rw [Bool.not_eq_false, beq_iff_eq] at hne
  subst hne
  have : l.contains a = true := by
    simpa using ha
  rw [h] at this
  cases this

/-! ## Row-extraction lemmas for the statistics aggregator -/

/-- The amount contributed by one row of `getCSVStatistics`, when any:
non-blank line, non-empty cell, numeric, not negative. -/
def rowAmount (amountIndex : Nat) (line : List Char) : Option BigNum :=
  if trimChars line = [] then none
  else
    let values := (splitOnChar ',' line).map trimChars
    let amountValue := values.getD amountIndex []
    if amountValue ≠ [] then
      match parseBigNum amountValue with
      | some amount => if ¬ amount.neg then some amount else none
      | none => none
    else none

theorem collectRow_fst (amountIndex : Nat) (st : List BigNum × Nat) (line : List Char) :
    (collectRow amountIndex st line).1 = st.1 ++ (rowAmount amountIndex line).toList := by
  simp only [collectRow, rowAmount]
  by_cases h1 : trimChars line = []
  · simp [h1]
  · rw [if_neg h1, if_neg h1]
    generalize ((splitOnChar ',' line).map trimChars).getD amountIndex [] = v
    by_cases h2 : v = []
    · simp [h2]
    · rcases h3 : parseBigNum v with _ | amount
      · simp [h2, h3]
      · by_cases h4 : amount.neg = true
        · simp [h2, h3, h4]
        · simp [h2, h3, h4]

theorem rowAmount_neg_false (amountIndex : Nat) (line : List Char) (x : BigNum)
    (h : rowAmount amountIndex line = some x) : x.neg = false := by
  simp only [rowAmount] at h
  by_cases h1 : trimChars line = []
  · simp [h1] at h
  · rw [if_neg h1] at h
    revert h
    generalize ((splitOnChar ',' line).map trimChars).getD amountIndex [] = v
    intro h
    by_cases h2 : v = []
    · simp [h2] at h
    · rcases h3 : parseBigNum v with _ | amount
      · simp [h2, h3] at h
      · by_cases h4 : amount.neg = true
        · simp [h2, h3, h4] at h
        · simp [h2, h3, h4] at h
          rw [← h]
          simpa using h4

theorem foldl_collectRow_fst (amountIndex : Nat) (rows : List (List Char))
    (st : List BigNum × Nat) :
    (rows.foldl (collectRow amountIndex) st).1 =
      st.1 ++ rows.filterMap (rowAmount amountIndex) := by
  induction rows generalizing st with
  | nil => simp
  | cons r rs ih =>
    rw [List.foldl_cons, ih, List.filterMap_cons]
    rcases h : rowAmount amountIndex r with _ | x
    · simp [collectRow_fst, h]
    · simp [collectRow_fst, h]

theorem getCSVStatisticsLines_totalAmount (header r : List Char) (rs : List (List Char))
    (amountColumn : List Char) (idx : Nat)
    (hidx : (((splitOnChar ',' header).map trimChars).findIdx?
      (fun col => col == amountColumn)) = some idx) :
    (getCSVStatisticsLines (header :: r :: rs) amountColumn).totalAmount =
      ((r :: rs).filterMap (rowAmount idx)).foldl bigPlus bigZero := by
  have hfst := foldl_collectRow_fst idx (r :: rs) ([], 0)
  simp only [List.nil_append] at hfst
  simp only [getCSVStatisticsLines, hidx]
  rcases hc : ((r :: rs).foldl (collectRow idx) ([], 0)).1 with _ | ⟨a, rest⟩
  · rw [hc] at hfst
    simp [← hfst, zeroCSVStats]
  · rw [hc] at hfst
    simp [← hfst]

/-- A concrete raw disbursement exercising the normalizer: all required
fields present, count fields deliberately inconsistent (1+2+3+1 = 7 ≠ 10). -/
def sampleDisbursement : ApiDisbursement :=
  { id := some "disb-1"
    name := some "Relief round"
    created_at := "2024-01-02T00:00:00Z"
    created_by := some { first_name := some "Jane", last_name := some "Doe" }
    started_by := none
    total_payments := some 10
    total_payments_sent := some 1
    total_payments_failed := some 2
    total_payments_canceled := some 3
    total_payments_remaining := some 1
    total_amount := some 100
    amount_disbursed := some 40
    average_amount := some 10
    status := "processing"
    registration_contact_type := "PHONE_NUMBER"
    asset := some { id := some "asset-1", code := some "USDC" }
    wallet := some { id := some "wallet-1", name := some "Vibrant" }
    verification_field := "DATE_OF_BIRTH"
    file_name := "list.csv"
    status_history := some
      [{ status := some "processing", timestamp := some "2024-01-03T00:00:00Z",
         user_id := some "u1" },
       { status := some "draft", timestamp := some "2024-01-02T00:00:00Z",
         user_id := none }]
    receiver_registration_message_template := "" }

/-- C8: from the terminal state `completed`, no transition is allowed by
either status machine, whatever the next status is. -/
theorem completed_state_is_terminal (next : String) :
    validateDisbursementStatusTransition "completed" next = false ∧
    validatePaymentStatusTransition "completed" next = false := by
  constructor <;> rfl

/-- C9: with an empty permission list, `hasAllPermissions` is true and
`hasAnyPermission` is false, for every role input (absent, unknown or
known). -/
theorem empty_permission_list_checks (role : Option String) :
    hasAllPermissions role [] = true ∧ hasAnyPermission role [] = false :=
  ⟨rfl, rfl⟩

/-- C1 counterexample: `canAssignRole("business","owner")` is denied, but
its reason is the `manage_roles` permission message, which does not mention
rank (no occurrence of the word). -/
theorem canAssignRole_business_owner_reason_not_rank :
    (validateRoleChangePermission "business" "owner").isValid = false ∧
    (validateRoleChangePermission "business" "owner").reason =
      some "Insufficient permissions to manage user roles" ∧
    containsSub "rank".data "Insufficient permissions to manage user roles".data = false := by
  refine ⟨?_, ?_, ?_⟩ <;> decide

/-- C1 amended: `canAssignRole("business","owner")` is denied with a reason
mentioning insufficient permissions (the `manage_roles` check fires before
the rank comparison); `canAssignRole("owner","owner")` and
`canAssignRole("owner","business")` are allowed. -/
theorem canAssignRole_examples :
    ((validateRoleChangePermission "business" "owner").isValid = false ∧
      containsSub "Insufficient permissions".data
        (((validateRoleChangePermission "business" "owner").reason.getD "").data) = true) ∧
    (validateRoleChangePermission "owner" "owner").isValid = true ∧
    (validateRoleChangePermission "owner" "business").isValid = true := by
  refine ⟨⟨?_, ?_⟩, ?_, ?_⟩ <;> decide

/-- C4 counterexample: a payment with a non-positive amount but also a
missing id fails with the missing-id error (`Payment ID is required`), not
with the invalid-amount error, because the id check runs first. -/
theorem paymentAmount_claim_fails_on_missing_id :
    formatPaymentDetails
      { id := none
        created_at := "2024-01-01T00:00:00Z"
        amount := some (-1)
        asset := some { code := some "USDC" }
        disbursement := none
        receiver_wallet := none
        stellar_transaction_id := ""
        stellar_address := ""
        external_payment_id := none
        circle_transfer_request_id := none
        status := "pending"
        status_history := none } = .error "Payment ID is required" := by
  rfl

/-- C4 amended: for every payment raw record with a (truthy) id whose
amount is absent or at most 0, normalization fails with the invalid-amount
error. -/
theorem formatPaymentDetails_nonpositive_amount (payment : ApiPayment)
    (hid : truthyStr payment.id = true)
    (hamt : ∀ a : Rat, payment.amount = some a → a ≤ 0) :
    formatPaymentDetails payment = .error "Payment amount must be greater than 0" := by
  cases hpa : payment.amount with
  | none => simp [formatPaymentDetails, hid, hpa]
  | some a =>
    have ha := hamt a hpa
    simp [formatPaymentDetails, hid, hpa, ha]

/-- C4 amended witness: a concrete zero-amount payment with an id. -/
theorem formatPaymentDetails_nonpositive_amount_witness :
    formatPaymentDetails
      { id := some "pay-1"
        created_at := "2024-01-01T00:00:00Z"
        amount := some 0
        asset := some { code := some "USDC" }
        disbursement := none
        receiver_wallet := none
        stellar_transaction_id := ""
        stellar_address := ""
        external_payment_id := none
        circle_transfer_request_id := none
        status := "pending"
        status_history := none } = .error "Payment amount must be greater than 0" :=
  formatPaymentDetails_nonpositive_amount _ (by decide)
    (fun a h => by injection h with h; rw [← h])

/-- C2: every disbursement raw record with (truthy) id, non-blank name,
asset id and code, and wallet id and name normalizes without raising, and
the returned count stats are exactly the (`|| 0`-defaulted) input counts —
in particular, no hypothesis relates the four status counts to the total,
so a count-sum mismatch is never fatal and leaves the value unchanged. -/
theorem formatDisbursement_valid_stats (d : ApiDisbursement)
    (hid : truthyStr d.id = true)
    (hname : truthyStr d.name = true)
    (hblank : trimChars ((d.name.getD "").data) ≠ [])
    (hassetid : truthyStr (d.asset.bind (fun a => a.id)) = true)
    (hassetcode : truthyStr (d.asset.bind (fun a => a.code)) = true)
    (hwalletid : truthyStr (d.wallet.bind (fun w => w.id)) = true)
    (hwalletname : truthyStr (d.wallet.bind (fun w => w.name)) = true) :
    (formatDisbursement d).isOk = true ∧
    (formatDisbursement d).map (fun m => m.stats.paymentsSuccessfulCount) =
      .ok (jsNumOr d.total_payments_sent 0) ∧
    (formatDisbursement d).map (fun m => m.stats.paymentsFailedCount) =
      .ok (jsNumOr d.total_payments_failed 0) ∧
    (formatDisbursement d).map (fun m => m.stats.paymentsCanceledCount) =
      .ok (jsNumOr d.total_payments_canceled 0) ∧
    (formatDisbursement d).map (fun m => m.stats.paymentsRemainingCount) =
      .ok (jsNumOr d.total_payments_remaining 0) ∧
    (formatDisbursement d).map (fun m => m.stats.paymentsTotalCount) =
      .ok (jsNumOr d.total_payments 0) := by
  unfold formatDisbursement
  rw [if_neg (by simp [hid]),
      if_neg (by push_neg; exact ⟨by simp [hname], hblank⟩),
      if_neg (by simp [hassetid, hassetcode]),
      if_neg (by simp [hwalletid, hwalletname])]
  exact ⟨rfl, rfl, rfl, rfl, rfl, rfl⟩

/-- C2 witness: the sample disbursement (counts 1,2,3,1 with total 10, a
mismatch) normalizes successfully and round-trips its count fields. -/
theorem formatDisbursement_valid_stats_witness :
    (formatDisbursement sampleDisbursement).isOk = true ∧
    (formatDisbursement sampleDisbursement).map (fun m => m.stats.paymentsSuccessfulCount) =
      .ok 1 ∧
    (formatDisbursement sampleDisbursement).map (fun m => m.stats.paymentsFailedCount) =
      .ok 2 ∧
    (formatDisbursement sampleDisbursement).map (fun m => m.stats.paymentsCanceledCount) =
      .ok 3 ∧
    (formatDisbursement sampleDisbursement).map (fun m => m.stats.paymentsRemainingCount) =
      .ok 1 ∧
    (formatDisbursement sampleDisbursement).map (fun m => m.stats.paymentsTotalCount) =
      .ok 10 :=
  formatDisbursement_valid_stats sampleDisbursement (by decide) (by decide) (by decide)
    (by decide) (by decide) (by decide) (by decide)

/-- C3: aggregating the literal five-row CSV over column `amount` with the
default 7 decimal places yields 2 valid rows, 3 invalid rows, total
30.6234567, min 10.1234567, max 20.5 and average 15.31172835 (each decimal
`d` encoded as coefficient/scale with value `coeff / 10 ^ scale`). -/
theorem getCSVStatistics_literal_example :
    getCSVStatistics "amount,note\n10.1234567,a\n-5,b\nabc,c\n,d\n20.5,e" "amount" =
      { rowCount := 5
        totalAmount := { neg := false, coeff := 306234567, scale := 7 }
        averageAmount := { neg := false, coeff := 1531172835, scale := 8 }
        minAmount := { neg := false, coeff := 101234567, scale := 7 }
        maxAmount := { neg := false, coeff := 205, scale := 1 }
        validRows := 2
        invalidRows := 3 } := by
  decide

/-- C5: when the header row does not contain the requested column name
(exact match after comma-split and trim), `getCSVStatistics` returns the
zero aggregate and counts every data row as invalid. -/
theorem getCSVStatistics_missing_column (csvContent amountColumn : String)
    (h : ((((splitOnChar '\n' csvContent.data).filter
        (fun line => trimChars line ≠ [])).head?.map
        (fun header => ((splitOnChar ',' header).map trimChars).contains
          amountColumn.data)).getD false) = false) :
    getCSVStatistics csvContent amountColumn =
      zeroCSVStats
        ((((splitOnChar '\n' csvContent.data).filter
            (fun line => trimChars line ≠ [])).drop 1).length)
        ((((splitOnChar '\n' csvContent.data).filter
            (fun line => trimChars line ≠ [])).drop 1).length) := by
  unfold getCSVStatistics
  revert h
  generalize (splitOnChar '\n' csvContent.data).filter (fun line => trimChars line ≠ []) = L
  intro h
  cases L with
  | nil => rfl
  | cons x rest =>
    cases rest with
    | nil => rfl
    | cons y rest2 =>
      simp only [List.head?_cons, Option.map_some', Option.getD_some] at h
      have hidx := findIdx?_beq_none _ _ h
      simp [getCSVStatisticsLines, hidx, zeroCSVStats]

/-- C5 witness: a two-data-row CSV without an `amount` column. -/
theorem getCSVStatistics_missing_column_witness :
    getCSVStatistics "foo,bar\n1,2\n3,4" "amount" = zeroCSVStats 2 2 := by
  rw [getCSVStatistics_missing_column "foo,bar\n1,2\n3,4" "amount" (by decide)]
  decide

/-- C6: a row of `csvTotalAmount` whose target-column cell is a valid
non-negative decimal with more decimal places than the limit is still added
to the total and counted valid — the accumulator update is identical to the
in-limit case, excess precision never causes a skip or an error. -/
theorem processCsvRow_excess_precision (amountIndex decimalPlaces index : Nat)
    (st : CsvAcc) (line : List Char) (amount : BigNum)
    (hparse : parseBigNum (((splitOnChar ',' line).map trimChars).getD amountIndex []) =
      some amount)
    (hneg : amount.neg = false)
    (hdp : amount.scale > decimalPlaces) :
    processCsvRow amountIndex decimalPlaces st index line =
      { st with totalAmount := bigPlus st.totalAmount amount
                validRows := st.validRows + 1 } := by
  have hval : ((splitOnChar ',' line).map trimChars).getD amountIndex [] ≠ [] := by
    intro he
    rw [he] at hparse
    simp [parseBigNum, splitOnChar] at hparse
  have hblank : trimChars line ≠ [] :=
    fun hb => hval (extractAt_of_blank amountIndex line hb)
  simp only [processCsvRow]
  rw [if_neg hblank, if_neg hval, hparse]
  simp [hneg]

/-- C6 witness: `1.12345678` has 8 decimal places, above the default limit
of 7, and is still summed and counted valid. -/
theorem processCsvRow_excess_precision_witness :
    processCsvRow 0 7
      { totalAmount := bigZero, validRows := 0, invalidRows := 0, errors := [] }
      0 "1.12345678".data =
      { totalAmount := bigPlus bigZero { neg := false, coeff := 112345678, scale := 8 }
        validRows := 1
        invalidRows := 0
        errors := [] } :=
  processCsvRow_excess_precision 0 7 0
    { totalAmount := bigZero, validRows := 0, invalidRows := 0, errors := [] }
    "1.12345678".data { neg := false, coeff := 112345678, scale := 8 }
    (by decide) rfl (by decide)

/-- C7: permuting the data rows leaves the aggregated total exactly
unchanged (the totals are equal as normalized exact decimals). -/
theorem getCSVStatistics_total_perm (header : List Char) (rows1 rows2 : List (List Char))
    (amountColumn : List Char) (hperm : rows1.Perm rows2) :
    (getCSVStatisticsLines (header :: rows1) amountColumn).totalAmount =
      (getCSVStatisticsLines (header :: rows2) amountColumn).totalAmount := by
  cases rows1 with
  | nil =>
    have h2 : rows2 = [] := hperm.symm.eq_nil
    subst h2
    rfl
  | cons a l1 =>
    cases rows2 with
    | nil => cases hperm.eq_nil
    | cons b l2 =>
      rcases hidx : (((splitOnChar ',' header).map trimChars).findIdx?
          (fun col => col == amountColumn)) with _ | idx
      · simp [getCSVStatisticsLines, hidx, zeroCSVStats]
      · rw [getCSVStatisticsLines_totalAmount header a l1 amountColumn idx hidx,
            getCSVStatisticsLines_totalAmount header b l2 amountColumn idx hidx]
        have hp : ((a :: l1).filterMap (rowAmount idx)).Perm
            ((b :: l2).filterMap (rowAmount idx)) := hperm.filterMap _
        have hn1 : ∀ x ∈ (a :: l1).filterMap (rowAmount idx), x.neg = false := by
          intro x hx
          rcases List.mem_filterMap.1 hx with ⟨line, _, hline⟩
          exact rowAmount_neg_false idx line x hline
        have hn2 : ∀ x ∈ (b :: l2).filterMap (rowAmount idx), x.neg = false := by
          intro x hx
          rcases List.mem_filterMap.1 hx with ⟨line, _, hline⟩
          exact rowAmount_neg_false idx line x hline
        obtain ⟨g1, g2, g3⟩ := foldl_bigPlus_spec _ bigZero hn1 ⟨Or.inl rfl, rfl⟩
        obtain ⟨k1, k2, k3⟩ := foldl_bigPlus_spec _ bigZero hn2 ⟨Or.inl rfl, rfl⟩
        apply toRat_inj_of_normalized _ _ g1 k1 g2 k2
        rw [g3, k3]
        congr 1
        exact (hp.map toRat).sum_eq

/-- C7 witness: swapping two concrete valid rows leaves the total
unchanged. -/
theorem getCSVStatistics_total_perm_witness :
    (getCSVStatisticsLines
      ["amount,note".data, "1.5,x".data, "2.25,y".data] "amount".data).totalAmount =
    (getCSVStatisticsLines
      ["amount,note".data, "2.25,y".data, "1.5,x".data] "amount".data).totalAmount :=
  getCSVStatistics_total_perm "amount,note".data _ _ "amount".data
    (List.Perm.swap "2.25,y".data "1.5,x".data [])

/-- C10 counterexample: the cell `-0` parses to a value that is exactly
zero, yet the row is rejected as negative (bignumber.js keeps the sign of
`-0`, so `isNegative()` is true) and counted invalid, not valid. -/
theorem negative_zero_row_counted_invalid :
    parseBigNum "-0".data = some { neg := true, coeff := 0, scale := 0 } ∧
    toRat { neg := true, coeff := 0, scale := 0 } = 0 ∧
    collectRow 0 ([], 0) "-0".data = ([], 1) := by
  refine ⟨by decide, ?_, by decide⟩
  norm_num [toRat, signedCoeff]

/-- C10 amended: a row whose target-column cell parses to a zero value
without the negative sign flag (e.g. `0` or `0.0`, but not `-0`) is counted
valid, appended to the amounts, and contributes zero to the total. -/
theorem collectRow_zero_value_valid (amountIndex : Nat) (st : List BigNum × Nat)
    (line : List Char) (amount : BigNum)
    (hparse : parseBigNum (((splitOnChar ',' line).map trimChars).getD amountIndex []) =
      some amount)
    (hneg : amount.neg = false)
    (hzero : toRat amount = 0) :
    collectRow amountIndex st line = (st.1 ++ [amount], st.2) ∧
    toRat ((st.1 ++ [amount]).foldl bigPlus bigZero) =
      toRat (st.1.foldl bigPlus bigZero) := by
  have hval : ((splitOnChar ',' line).map trimChars).getD amountIndex [] ≠ [] := by
    intro he
    rw [he] at hparse
    simp [parseBigNum, splitOnChar] at hparse
  have hblank : trimChars line ≠ [] :=
    fun hb => hval (extractAt_of_blank amountIndex line hb)
  constructor
  · simp only [collectRow]
    rw [if_neg hblank, if_pos hval, hparse]
    simp [hneg]
  · rw [List.foldl_append, List.foldl_cons, List.foldl_nil, toRat_bigPlus, hzero, add_zero]

/-- C10 amended witness: the cell `0.0` is pushed as a zero amount. -/
theorem collectRow_zero_value_valid_witness :
    collectRow 0 ([{ neg := false, coeff := 5, scale := 0 }], 3) "0.0".data =
      ([{ neg := false, coeff := 5, scale := 0 },
        { neg := false, coeff := 0, scale := 0 }], 3) ∧
    toRat (([{ neg := false, coeff := 5, scale := 0 },
        { neg := false, coeff := 0, scale := 0 }] : List BigNum).foldl bigPlus bigZero) =
      toRat (([{ neg := false, coeff := 5, scale := 0 }] : List BigNum).foldl bigPlus bigZero) :=
  collectRow_zero_value_valid 0 ([{ neg := false, coeff := 5, scale := 0 }], 3)
    "0.0".data { neg := false, coeff := 0, scale := 0 } (by decide) rfl
    (by norm_num [toRat, signedCoeff])
